import Mathlib

/-!
Verification of the request-handling core of a minimal multi-threaded
HTTP/1.1 file server (src/http_server.py) against its natural-language
specification.

Modelling conventions (shallow embedding):
* A Python `str` is a sequence of Unicode code points, embedded as `List Char`
  (`PyStr`); a Python `bytes` value is embedded as `List Nat` (`Bytes`).
* The filesystem is a function from canonical absolute path to an open result
  (`OpenResult`): the model assumes a POSIX filesystem without symlinks in
  which every directory mentioned on a path exists, so `open(p)` is keyed by
  `os.path.abspath` of `p` relative to the process working directory `cwd`.
* `formatdate()` (the `Date` header) reads the real-time clock; it is passed
  in as an explicit `date` parameter, the sole time-dependent input.
* An exception that the source code does not catch is represented by
  `Except.error` (for `build_response`) and by `Outcome.crashed` (for the
  per-connection handler thread).
-/

/-- A Python `str`: a sequence of Unicode code points. -/
abbrev PyStr := List Char

/-- A Python `bytes` value: a sequence of byte values. -/
abbrev Bytes := List Nat

/-- The code points of a Lean string literal, as a `PyStr`. -/
def S (s : String) : PyStr := s.data

/-- The bytes of an ASCII string literal, modelling a Python `b"..."` literal. -/
def asciiB (s : String) : Bytes := s.data.map Char.toNat

/-! ## Python `str` primitives used by the source -/

/-- Python `s.split(sep)` for a one-character separator `sep`: all pieces are
kept, including empty ones, so the result is always non-empty. -/
def pySplitChar (sep : Char) : PyStr → List PyStr
  | [] => [[]]
  | c :: rest =>
    match pySplitChar sep rest with
    | [] => [[]]
    | hd :: tl => if c = sep then [] :: hd :: tl else (c :: hd) :: tl

/-- Python `s.lower()` (ASCII case mapping; the extension table below is
ASCII-only, so the full Unicode case map is not needed). -/
def pyLower (s : PyStr) : PyStr := s.map Char.toLower

/-- The whitespace class of Python `str.split()` with no argument, restricted
to the Latin-1 range — all a `latin-1`-decoded string can contain. -/
def isPySpace (c : Char) : Bool :=
  c = ' ' || c = '\t' || c = '\n' || c = '\r' || c = '\x0b' || c = '\x0c'
    || c = '\x1c' || c = '\x1d' || c = '\x1e' || c = '\x1f'
    || c = '\x85' || c = '\xa0'

/-- The run accumulator of `pySplitWs`: `acc` holds the reversed characters of
the word being read. -/
def pySplitWsAux (acc : PyStr) : PyStr → List PyStr
  | [] => if acc = [] then [] else [acc.reverse]
  | c :: rest =>
    if isPySpace c then
      if acc = [] then pySplitWsAux [] rest else acc.reverse :: pySplitWsAux [] rest
    else pySplitWsAux (c :: acc) rest

/-- Python `s.split()` with no argument: split on runs of whitespace and
drop empty pieces. -/
def pySplitWs (s : PyStr) : List PyStr := pySplitWsAux [] s

/-- The first element of Python `s.split('\r\n')`: the code points before the
first CR LF pair, or all of `s` when there is none. -/
def firstLine : PyStr → PyStr
  | [] => []
  | '\r' :: '\n' :: _ => []
  | c :: rest => c :: firstLine rest

/-- Python `data.decode('latin-1')`: every byte below 256 maps to the code
point of the same value (total on such bytes; chunks delivered by a socket
are always in range). -/
def latin1Decode (b : Bytes) : PyStr := b.map Char.ofNat

/-! ## `urllib.parse.unquote` (default `encoding='utf-8', errors='replace'`) -/

/-- The value of a hexadecimal digit character, if it is one. -/
def hexVal (c : Char) : Option Nat :=
  if '0' ≤ c ∧ c ≤ '9' then some (c.toNat - '0'.toNat)
  else if 'a' ≤ c ∧ c ≤ 'f' then some (c.toNat - 'a'.toNat + 10)
  else if 'A' ≤ c ∧ c ≤ 'F' then some (c.toNat - 'A'.toNat + 10)
  else none

/-- `urllib.parse.unquote_to_bytes` on an ASCII run: each `%` followed by two
hexadecimal digits becomes that byte; any other `%` is kept literally. -/
def percentDecodeBytes : PyStr → Bytes
  | [] => []
  | '%' :: c1 :: c2 :: rest =>
    match hexVal c1, hexVal c2 with
    | some hi, some lo => (16 * hi + lo) :: percentDecodeBytes rest
    | _, _ => '%'.toNat :: percentDecodeBytes (c1 :: c2 :: rest)
  | c :: rest => c.toNat :: percentDecodeBytes rest

/-- The Unicode replacement character U+FFFD. -/
def replChar : Char := Char.ofNat 0xFFFD

/-- Is `b` a UTF-8 continuation byte (0x80..0xBF)? -/
def utf8Cont (b : Nat) : Bool := 128 ≤ b && b ≤ 191

/-- The allowed first continuation byte after a three-byte lead. -/
def utf8Cont3First (lead b : Nat) : Bool :=
  if lead = 224 then 160 ≤ b && b ≤ 191
  else if lead = 237 then 128 ≤ b && b ≤ 159
  else utf8Cont b

/-- The allowed first continuation byte after a four-byte lead. -/
def utf8Cont4First (lead b : Nat) : Bool :=
  if lead = 240 then 144 ≤ b && b ≤ 191
  else if lead = 244 then 128 ≤ b && b ≤ 143
  else utf8Cont b

/-- `bytes.decode('utf-8', errors='replace')`: each maximal invalid subpart is
replaced by one U+FFFD, per the Unicode substitution convention CPython uses. -/
def utf8DecodeReplace : Bytes → PyStr
  | [] => []
  | b :: rest =>
    if b < 128 then Char.ofNat b :: utf8DecodeReplace rest
    else if 194 ≤ b ∧ b ≤ 223 then
      match rest with
      | [] => [replChar]
      | b1 :: rest1 =>
        if utf8Cont b1 then
          Char.ofNat ((b - 192) * 64 + (b1 - 128)) :: utf8DecodeReplace rest1
        else replChar :: utf8DecodeReplace (b1 :: rest1)
    else if 224 ≤ b ∧ b ≤ 239 then
      match rest with
      | [] => [replChar]
      | b1 :: rest1 =>
        if utf8Cont3First b b1 then
          match rest1 with
          | [] => [replChar]
          | b2 :: rest2 =>
            if utf8Cont b2 then
              Char.ofNat ((b - 224) * 4096 + (b1 - 128) * 64 + (b2 - 128))
                :: utf8DecodeReplace rest2
            else replChar :: utf8DecodeReplace (b2 :: rest2)
        else replChar :: utf8DecodeReplace (b1 :: rest1)
    else if 240 ≤ b ∧ b ≤ 244 then
      match rest with
      | [] => [replChar]
      | b1 :: rest1 =>
        if utf8Cont4First b b1 then
          match rest1 with
          | [] => [replChar]
          | b2 :: rest2 =>
            if utf8Cont b2 then
              match rest2 with
              | [] => [replChar]
              | b3 :: rest3 =>
                if utf8Cont b3 then
                  Char.ofNat ((b - 240) * 262144 + (b1 - 128) * 4096
                      + (b2 - 128) * 64 + (b3 - 128)) :: utf8DecodeReplace rest3
                else replChar :: utf8DecodeReplace (b3 :: rest3)
            else replChar :: utf8DecodeReplace (b2 :: rest2)
        else replChar :: utf8DecodeReplace (b1 :: rest1)
    else replChar :: utf8DecodeReplace rest

/-- The body of `urllib.parse.unquote`: the string is cut into maximal runs of
ASCII code points (the `_asciire` regex split); each ASCII run is
percent-decoded to bytes and UTF-8-decoded with `errors='replace'`; code
points above 0x7F pass through untouched. -/
def unquoteGoAux (run : PyStr) : PyStr → PyStr
  | [] => if run = [] then [] else utf8DecodeReplace (percentDecodeBytes run.reverse)
  | c :: rest =>
    if c.toNat < 128 then unquoteGoAux (c :: run) rest
    else
      (if run = [] then [] else utf8DecodeReplace (percentDecodeBytes run.reverse))
        ++ c :: unquoteGoAux [] rest

/-- See `unquoteGoAux`: `run` holds the reversed ASCII run being collected. -/
def unquoteGo (s : PyStr) : PyStr := unquoteGoAux [] s

/-- `urllib.parse.unquote(s)` with the default `errors='replace'`: note it is
total — it never raises on a `str` argument. -/
def unquote (s : PyStr) : PyStr := if '%' ∈ s then unquoteGo s else s

/-! ## POSIX path functions (`os.path.join`, `os.path.normpath`, `os.path.abspath`) -/

/-- Python `sep.join(xs)`. -/
def pyJoinSep (sep : PyStr) : List PyStr → PyStr
  | [] => []
  | [x] => x
  | x :: y :: rest => x ++ sep ++ pyJoinSep sep (y :: rest)

/-- `os.path.join(a, b)` (POSIX, two arguments): `b` replaces `a` when it is
absolute, otherwise it is appended after a `/` unless one is already there. -/
def pyJoin (a b : PyStr) : PyStr :=
  if (S "/").isPrefixOf b then b
  else if a = [] ∨ a.getLast? = some '/' then a ++ b
  else a ++ '/' :: b

/-- One step of `posixpath.normpath`'s component loop: drop empty and `.`
components; a `..` is appended when it cannot pop (at the start of a relative
path, or after another `..`), pops the previous component when it can, and is
dropped at the root of an absolute path. -/
def normpathStep (initialSlashes : Nat) (acc : List PyStr) (comp : PyStr) : List PyStr :=
  if comp = [] ∨ comp = S "." then acc
  else if comp ≠ S ".." ∨ (initialSlashes = 0 ∧ acc = []) ∨ acc.getLast? = some (S "..") then
    acc ++ [comp]
  else if acc ≠ [] then acc.dropLast
  else acc

/-- `posixpath.normpath(path)`: collapse `//` and `.` and resolve `..`
lexically, preserving a leading double slash exactly as CPython does. -/
def normpath (path : PyStr) : PyStr :=
  if path = [] then S "."
  else
    let initialSlashes : Nat :=
      if (S "/").isPrefixOf path then
        if (S "//").isPrefixOf path ∧ ¬ (S "///").isPrefixOf path then 2 else 1
      else 0
    let comps := pySplitChar '/' path
    let newComps := comps.foldl (normpathStep initialSlashes) []
    let res := List.replicate initialSlashes '/' ++ pyJoinSep (S "/") newComps
    if res = [] then S "." else res

/-- `os.path.abspath(p)` for a process whose working directory is `cwd`:
`normpath(p)` when `p` is absolute, else `normpath(join(cwd, p))`. -/
def abspath (cwd p : PyStr) : PyStr :=
  if (S "/").isPrefixOf p then normpath p else normpath (pyJoin cwd p)

/-! ## MIME resolver (`get_mime_type`) -/

/-- `SERVER_NAME` of the source. -/
def SERVER_NAME : PyStr := S "BobsDiscountServer/2.1"

/-- `DEFAULT_MIME_TYPE` of the source. -/
def DEFAULT_MIME_TYPE : PyStr := S "application/octet-stream"

/-- The `MIME_TYPES` dictionary of the source, as an association list. -/
def MIME_TYPES : List (PyStr × PyStr) :=
  [ (S "html", S "text/html"), (S "htm", S "text/html"), (S "css", S "text/css"),
    (S "js", S "application/javascript"), (S "json", S "application/json"),
    (S "png", S "image/png"), (S "jpg", S "image/jpeg"), (S "jpeg", S "image/jpeg"),
    (S "gif", S "image/gif"), (S "txt", S "text/plain") ]

/-- `MIME_TYPES.get(ext, DEFAULT_MIME_TYPE)`. -/
def lookupMime (ext : PyStr) : PyStr :=
  ((MIME_TYPES.find? (fun kv => kv.1 == ext)).map Prod.snd).getD DEFAULT_MIME_TYPE

/-- `get_mime_type(file_path)`: when a dot occurs anywhere in the path, look up
the lower-cased text after the last dot of the whole path, else the default. -/
def get_mime_type (file_path : PyStr) : PyStr :=
  if '.' ∈ file_path then
    lookupMime (pyLower ((pySplitChar '.' file_path).getLastD []))
  else DEFAULT_MIME_TYPE

/-! ## Response framer (`format_http_response`) -/

/-- `s.encode('latin-1')`: one byte per code point; raises (modelled as `none`)
when a code point is above 255. -/
def latin1Encode (s : PyStr) : Option Bytes :=
  if s.all (fun c => c.toNat < 256) then some (s.map Char.toNat) else none

/-- The character for the least significant decimal digit of `d`. -/
def decDigit (d : Nat) : Char :=
  match d % 10 with
  | 0 => '0' | 1 => '1' | 2 => '2' | 3 => '3' | 4 => '4'
  | 5 => '5' | 6 => '6' | 7 => '7' | 8 => '8' | _ => '9'

/-- The decimal digits of `n`, most significant first; the fuel argument (any
value above the digit count, here `n + 1`) only forces termination. -/
def natStrAux : Nat → Nat → PyStr → PyStr
  | 0, _, acc => acc
  | fuel + 1, n, acc =>
    if n < 10 then decDigit n :: acc
    else natStrAux fuel (n / 10) (decDigit n :: acc)

/-- Python `f-string` rendering of a `Nat` (decimal, no sign, no padding). -/
def natStr (n : Nat) : PyStr := natStrAux (n + 1) n []

/-- `format_http_response(status_code, status_text, content_type, content_body)`.
The `Date` value produced by `formatdate(usegmt=True)` is the `date_header`
parameter. `none` models an uncaught `UnicodeEncodeError` from
`.encode('latin-1')`. -/
def format_http_response (status_code : Nat) (status_text content_type : PyStr)
    (content_body : Bytes) (date_header : PyStr) : Option Bytes :=
  let content_length := content_body.length
  let response_line := S "HTTP/1.1 " ++ natStr status_code ++ S " " ++ status_text ++ S "\r\n"
  let headers : List PyStr :=
    [ S "Date: " ++ date_header,
      S "Server: " ++ SERVER_NAME,
      S "Content-Type: " ++ content_type,
      S "Content-Length: " ++ natStr content_length,
      S "Connection: close" ]
  let header_string := response_line ++ pyJoinSep (S "\r\n") headers ++ S "\r\n\r\n"
  (latin1Encode header_string).map (fun h => h ++ content_body)

/-! ## Path resolution and file serving (`build_response`) -/

/-- The outcome of `open(path, 'rb')` followed by `f.read()`. `oserror` covers
every `OSError` other than `FileNotFoundError` (`PermissionError`,
`IsADirectoryError`, ...), which the source does not catch. -/
inductive OpenResult where
  | ok (content : Bytes)
  | enoent
  | oserror
deriving DecidableEq

/-- An exception the source lets escape. -/
inductive PyExc where
  | uncaughtOSError
  | unicodeEncodeError
deriving DecidableEq

/-- The four arguments of one `format_http_response` call. -/
structure HttpResponsePlan where
  status_code : Nat
  status_text : PyStr
  content_type : PyStr
  body : Bytes
deriving DecidableEq

instance {ε α : Type} [DecidableEq ε] [DecidableEq α] : DecidableEq (Except ε α) := fun a b =>
  match a, b with
  | .ok x, .ok y =>
    if h : x = y then .isTrue (by rw [h]) else .isFalse (fun hc => h (Except.ok.inj hc))
  | .error x, .error y =>
    if h : x = y then .isTrue (by rw [h]) else .isFalse (fun hc => h (Except.error.inj hc))
  | .ok _, .error _ => .isFalse (fun hc => Except.noConfusion hc)
  | .error _, .ok _ => .isFalse (fun hc => Except.noConfusion hc)

/-- `open(p, 'rb')` in a process whose working directory is `cwd`: the
operating system resolves `.` and `..`, so the model filesystem `fs` is keyed
by the canonical absolute path (no symlinks; every directory on the way is
assumed to exist). -/
def os_open (fs : PyStr → OpenResult) (cwd p : PyStr) : OpenResult := fs (abspath cwd p)

/-- Step 1 of `build_response`: `uri_path = urllib.parse.unquote(uri_path)`.
`unquote` never raises on a `str`, so the `except` branch returning 400 is
unreachable. -/
def decoded_path (uri_path : PyStr) : PyStr := unquote uri_path

/-- Step 2 of `build_response`: `if uri_path.endswith('/'): uri_path += 'index.html'`. -/
def indexed_path (uri_path : PyStr) : PyStr :=
  let d := decoded_path uri_path
  if d.getLast? = some '/' then d ++ S "index.html" else d

/-- `relative_path = uri_path.lstrip('/')`. -/
def relative_path (uri_path : PyStr) : PyStr := (indexed_path uri_path).dropWhile (fun c => c = '/')

/-- `full_path = os.path.join(doc_root, relative_path)`. -/
def full_path (uri_path doc_root : PyStr) : PyStr := pyJoin doc_root (relative_path uri_path)

/-- `abs_doc_root = os.path.abspath(doc_root)`. -/
def abs_doc_root (cwd doc_root : PyStr) : PyStr := abspath cwd doc_root

/-- `abs_full_path = os.path.abspath(full_path)`. -/
def abs_full_path (cwd uri_path doc_root : PyStr) : PyStr := abspath cwd (full_path uri_path doc_root)

/-- The containment check of `build_response`:
`abs_full_path.startswith(abs_doc_root)` — a raw string prefix test. -/
def security_check (cwd uri_path doc_root : PyStr) : Bool :=
  (abs_doc_root cwd doc_root).isPrefixOf (abs_full_path cwd uri_path doc_root)

/-- The status, text, content type and body chosen by `build_response` before
framing. Each branch carries exactly the arguments the source passes to
`format_http_response`; `.error` is an exception the source does not catch. -/
def build_response_parts (cwd uri_path doc_root : PyStr) (fs : PyStr → OpenResult) :
    Except PyExc HttpResponsePlan :=
  if security_check cwd uri_path doc_root then
    match os_open fs cwd (full_path uri_path doc_root) with
    | .ok content =>
      .ok ⟨200, S "OK", get_mime_type (full_path uri_path doc_root), content⟩
    | .enoent =>
      .ok ⟨404, S "Not Found", S "text/html", asciiB "<h1>404 Not Found</h1>"⟩
    | .oserror => .error .uncaughtOSError
  else
    .ok ⟨404, S "Not Found", S "text/html", asciiB "<h1>404 Not Found (Security Violation)</h1>"⟩

/-- `build_response(uri_path, doc_root)`: the chosen parts, framed by
`format_http_response`. -/
def build_response (cwd uri_path doc_root : PyStr) (fs : PyStr → OpenResult)
    (date : PyStr) : Except PyExc Bytes :=
  match build_response_parts cwd uri_path doc_root fs with
  | .error e => .error e
  | .ok r =>
    match format_http_response r.status_code r.status_text r.content_type r.body date with
    | some b => .ok b
    | none => .error .unicodeEncodeError

/-! ## Connection handler (`handle_request`) -/

/-- What one connection's handler does with its socket. -/
inductive Outcome where
  | closed
  | sent (response : Bytes)
  | crashed (e : PyExc)
deriving DecidableEq

/-- `b'\r\n\r\n' in data`. -/
def hasHeaderEnd : Bytes → Bool
  | [] => false
  | b :: rest => ([13, 10, 13, 10].isPrefixOf (b :: rest)) || hasHeaderEnd rest

/-- The receive loop of `handle_request`: accumulate chunks until the header
terminator appears in the buffer or the peer closes (an empty chunk, or no
chunks left). -/
def recv_all (acc : Bytes) : List Bytes → Bytes
  | [] => acc
  | c :: cs =>
    if c = [] then acc
    else
      let acc2 := acc ++ c
      if hasHeaderEnd acc2 then acc2 else recv_all acc2 cs

/-- The part of `handle_request` that runs on the parsed request line:
unpacking into exactly three tokens (else the `except` closes the socket),
the `GET` check, and the response write. -/
def dispatch_line (request_line : PyStr) (doc_root cwd : PyStr)
    (fs : PyStr → OpenResult) (date : PyStr) : Outcome :=
  match pySplitWs request_line with
  | [method, uri_path, _http_version] =>
    if method = S "GET" then
      match build_response cwd uri_path doc_root fs date with
      | .ok b => .sent b
      | .error e => .crashed e
    else .closed
  | _ => .closed

/-- `handle_request(client_socket, doc_root)` as a function of the chunk
sequence the socket delivers: read until terminator or end of stream, close
silently on an empty buffer, else act on the first line of the buffer. -/
def handle_request (chunks : List Bytes) (doc_root cwd : PyStr)
    (fs : PyStr → OpenResult) (date : PyStr) : Outcome :=
  let request_data := recv_all [] chunks
  if request_data = [] then .closed
  else dispatch_line (firstLine (latin1Decode request_data)) doc_root cwd fs date

/-! ## Specification-side definitions

These definitions are written from the words of the specification and the
claims, not from the source; the theorems below compare the source-derived
definitions against them. -/

/-- The claim's notion of a path lying strictly within the document-root
subtree: the root itself, or below it at a path-segment boundary. -/
def withinDocRootSubtree (root p : PyStr) : Bool :=
  p == root || (root ++ [ '/' ]).isPrefixOf p

/-- The specification's notion of a malformed percent-encoding: some `%` in
the string is not followed by two hexadecimal digits. -/
def hasMalformedPercent : PyStr → Bool
  | [] => false
  | '%' :: c1 :: c2 :: rest =>
    match hexVal c1, hexVal c2 with
    | some _, some _ => hasMalformedPercent rest
    | _, _ => true
  | '%' :: rest => (rest.length < 2) || hasMalformedPercent rest
  | _ :: rest => hasMalformedPercent rest

/-- The characters other than `sep`, as a Boolean predicate. -/
def neChar (sep : Char) : Char → Bool := fun c => decide (¬ c = sep)

/-- The text after the last occurrence of `sep`, or the whole string when
`sep` does not occur (used by the claim's wording for C6). -/
def afterLast (sep : Char) (l : PyStr) : PyStr :=
  (l.reverse.takeWhile (neChar sep)).reverse

/-- The MIME resolution the claim describes: the extension after the last dot
of the path's final segment, looked up case-insensitively, with the fixed
default when the final segment has no dot or the extension is unknown. -/
def mime_spec (p : PyStr) : PyStr :=
  let seg := afterLast '/' p
  if '.' ∈ seg then lookupMime (pyLower (afterLast '.' seg)) else DEFAULT_MIME_TYPE

/-- One header line as the claim describes it: its text one byte per
character, terminated by CR LF. -/
def encodeLine (l : PyStr) : Bytes := l.map Char.toNat ++ [13, 10]

/-- The wire format the claim describes for C3: status line, then the five
headers in order, each CR LF-terminated, one blank CR LF, then the body
bytes unmodified, with `Content-Length` the exact byte length of the body. -/
def frame_spec (code : Nat) (text ct : PyStr) (body : Bytes) (date : PyStr) : Bytes :=
  encodeLine (S "HTTP/1.1 " ++ natStr code ++ S " " ++ text)
  ++ encodeLine (S "Date: " ++ date)
  ++ encodeLine (S "Server: " ++ SERVER_NAME)
  ++ encodeLine (S "Content-Type: " ++ ct)
  ++ encodeLine (S "Content-Length: " ++ natStr body.length)
  ++ encodeLine (S "Connection: close")
  ++ [13, 10]
  ++ body

/-- The whitespace tokens of the first line of the buffered request. -/
def request_tokens (chunks : List Bytes) : List PyStr :=
  pySplitWs (firstLine (latin1Decode (recv_all [] chunks)))

/-! ## Claim C1 -/

/-- C1, counterexample: against document root `/srv/www` (working directory
`/`), the request path `/../www-secret/x` passes the containment check —
`/srv/www-secret/x` has `/srv/www` as a string prefix — and is served with
200 even though the resolved absolute path lies outside the document-root
subtree. -/
theorem c1_counterexample :
    build_response_parts (S "/") (S "/../www-secret/x") (S "/srv/www")
      (fun p => if p = S "/srv/www-secret/x" then OpenResult.ok (asciiB "secret") else OpenResult.enoent)
      = Except.ok ⟨200, S "OK", S "application/octet-stream", asciiB "secret"⟩
    ∧ abs_full_path (S "/") (S "/../www-secret/x") (S "/srv/www") = S "/srv/www-secret/x"
    ∧ withinDocRootSubtree (abs_doc_root (S "/") (S "/srv/www"))
        (abs_full_path (S "/") (S "/../www-secret/x") (S "/srv/www")) = false := by
  refine ⟨by decide, by decide, by decide⟩

/-! ## Claim C2 -/

/-- C2, counterexample: a load failure other than `FileNotFoundError` — here a
permission error on `/srv/www/secret.txt` — is not mapped to a 404: it escapes
`build_response` as an unhandled exception and the handler thread crashes with
no response written. -/
theorem c2_counterexample :
    handle_request [asciiB "GET /secret.txt HTTP/1.1\r\n\r\n"] (S "/srv/www") (S "/")
      (fun p => if p = S "/srv/www/secret.txt" then OpenResult.oserror else OpenResult.enoent)
      (S "Thu, 01 Jan 1970 00:00:00 GMT")
      = Outcome.crashed PyExc.uncaughtOSError := by decide

/-! ## Claim C3 -/

/-- C3, counterexample: with a status text containing the code point U+0100,
`.encode('latin-1')` raises `UnicodeEncodeError` (modelled as `none`), so
`format_http_response` does not produce the described byte stream for every
status text. -/
theorem c3_counterexample :
    format_http_response 200 [Char.ofNat 256] (S "text/html") (asciiB "x")
      (S "Thu, 01 Jan 1970 00:00:00 GMT") = none := by decide

/-! ## Claim C4 -/

set_option maxRecDepth 8000 in
/-- C4, counterexample: a request whose bytes contain no CRLF-terminated
header section is still parsed once the peer closes the connection: the
buffered first line `GET /x HTTP/1.1` is a valid GET, so a full 404 response
is written rather than the connection closing with zero bytes. -/
theorem c4_counterexample :
    hasHeaderEnd (asciiB "GET /x HTTP/1.1") = false
    ∧ handle_request [asciiB "GET /x HTTP/1.1"] (S "/srv/www") (S "/")
        (fun _ => OpenResult.enoent) (S "Thu, 01 Jan 1970 00:00:00 GMT")
      = Outcome.sent (asciiB "HTTP/1.1 404 Not Found\r\nDate: Thu, 01 Jan 1970 00:00:00 GMT\r\nServer: BobsDiscountServer/2.1\r\nContent-Type: text/html\r\nContent-Length: 22\r\nConnection: close\r\n\r\n<h1>404 Not Found</h1>") := by
  refine ⟨by decide, by decide⟩

/-! ## Claim C8 -/

/-- C8, counterexample: `/%zz` contains a malformed percent-encoding, yet
`build_response` does not return 400: `urllib.parse.unquote` leaves the
malformed sequence intact and the request proceeds to path resolution,
here ending in a plain 404. -/
theorem c8_counterexample :
    hasMalformedPercent (S "/%zz") = true
    ∧ build_response_parts (S "/") (S "/%zz") (S "/srv/www") (fun _ => OpenResult.enoent)
      = Except.ok ⟨404, S "Not Found", S "text/html", asciiB "<h1>404 Not Found</h1>"⟩ := by
  refine ⟨by decide, by decide⟩

/-- C1 (amended): for every input, `build_response` either rejects with the
security-violation 404 or the canonicalized joined path has the canonicalized
document root as a raw string prefix — the check is a string-prefix test, not
subtree containment, so `..` segments resolving to a sibling directory whose
name shares the root as a prefix can still be served (see
`c1_counterexample`). -/
theorem c1_theorem (cwd uri_path doc_root : PyStr) (fs : PyStr → OpenResult) :
    build_response_parts cwd uri_path doc_root fs
      = Except.ok ⟨404, S "Not Found", S "text/html",
          asciiB "<h1>404 Not Found (Security Violation)</h1>"⟩
    ∨ (abs_doc_root cwd doc_root).isPrefixOf (abs_full_path cwd uri_path doc_root) = true := by
  by_cases h : security_check cwd uri_path doc_root = true
  · right
    unfold security_check at h
    exact h
  · left
    simp [build_response_parts, h]

/-- C2 (amended): after the containment check passes, only a missing file
(`FileNotFoundError`) is mapped to the 404 response; every other load failure
(permission denied, ...) escapes `build_response` as an unhandled exception,
so the handler writes no response at all for it. -/
theorem c2_theorem (cwd uri_path doc_root : PyStr) (fs : PyStr → OpenResult)
    (hsec : security_check cwd uri_path doc_root = true) :
    (os_open fs cwd (full_path uri_path doc_root) = OpenResult.enoent →
      build_response_parts cwd uri_path doc_root fs
        = Except.ok ⟨404, S "Not Found", S "text/html", asciiB "<h1>404 Not Found</h1>"⟩)
    ∧ (os_open fs cwd (full_path uri_path doc_root) = OpenResult.oserror →
      build_response_parts cwd uri_path doc_root fs = Except.error PyExc.uncaughtOSError) := by
  constructor <;> intro h <;> simp [build_response_parts, hsec, h]

/-- C2, witness: a missing file under `/srv/www` gets the plain 404 parts, and
a permission error escapes as an exception. -/
theorem c2_witness :
    build_response_parts (S "/") (S "/missing") (S "/srv/www") (fun _ => OpenResult.enoent)
      = Except.ok ⟨404, S "Not Found", S "text/html", asciiB "<h1>404 Not Found</h1>"⟩
    ∧ build_response_parts (S "/") (S "/p") (S "/srv/www") (fun _ => OpenResult.oserror)
      = Except.error PyExc.uncaughtOSError :=
  ⟨(c2_theorem (S "/") (S "/missing") (S "/srv/www") (fun _ => OpenResult.enoent)
      (by decide)).1 (by decide),
   (c2_theorem (S "/") (S "/p") (S "/srv/www") (fun _ => OpenResult.oserror)
      (by decide)).2 (by decide)⟩

/-! ## Claim C5 -/

/-- C5: when the percent-decoded path ends with `/`, `index.html` is appended
before the join with the document root; in particular `/` resolves to
`/srv/www/index.html` and `/sub/` to `/srv/www/sub/index.html` under root
`/srv/www`. -/
theorem c5_theorem (uri_path : PyStr)
    (h : (decoded_path uri_path).getLast? = some '/') :
    indexed_path uri_path = decoded_path uri_path ++ S "index.html"
    ∧ full_path (S "/") (S "/srv/www") = S "/srv/www/index.html"
    ∧ full_path (S "/sub/") (S "/srv/www") = S "/srv/www/sub/index.html" := by
  refine ⟨?_, by decide, by decide⟩
  unfold indexed_path
  rw [if_pos h]

/-- C5, witness at the decoded path `/sub/`. -/
theorem c5_witness :
    indexed_path (S "/sub/") = decoded_path (S "/sub/") ++ S "index.html"
    ∧ full_path (S "/") (S "/srv/www") = S "/srv/www/index.html"
    ∧ full_path (S "/sub/") (S "/srv/www") = S "/srv/www/sub/index.html" :=
  c5_theorem (S "/sub/") (by decide)

/-! ## Claim C7 -/

/-- C7: every response plan `build_response` can produce carries one of the
status lines `200 OK`, `400 Bad Request`, `404 Not Found` — no other status is
ever emitted by the request-handling core. -/
theorem c7_theorem (cwd uri_path doc_root : PyStr) (fs : PyStr → OpenResult)
    (r : HttpResponsePlan) (h : build_response_parts cwd uri_path doc_root fs = Except.ok r) :
    (r.status_code = 200 ∧ r.status_text = S "OK")
    ∨ (r.status_code = 400 ∧ r.status_text = S "Bad Request")
    ∨ (r.status_code = 404 ∧ r.status_text = S "Not Found") := by
  unfold build_response_parts at h
  by_cases hs : security_check cwd uri_path doc_root = true
  · rw [if_pos hs] at h
    cases ho : os_open fs cwd (full_path uri_path doc_root) <;> rw [ho] at h
    · injection h with h2
      subst h2
      left
      exact ⟨rfl, rfl⟩
    · injection h with h2
      subst h2
      right; right
      exact ⟨rfl, rfl⟩
    · exact Except.noConfusion h
  · rw [if_neg hs] at h
    injection h with h2
    subst h2
    right; right
    exact ⟨rfl, rfl⟩

/-- C7, witness: a served file yields the `200 OK` disjunct. -/
theorem c7_witness :
    (200 = 200 ∧ S "OK" = S "OK")
    ∨ (200 = 400 ∧ S "OK" = S "Bad Request")
    ∨ (200 = 404 ∧ S "OK" = S "Not Found") :=
  c7_theorem (S "/") (S "/f") (S "/srv/www") (fun _ => OpenResult.ok [])
    ⟨200, S "OK", get_mime_type (full_path (S "/f") (S "/srv/www")), []⟩ (by decide)

/-- C8 (amended): `urllib.parse.unquote` with its default `errors='replace'`
never raises on a `str`, so the except-branch returning 400 is dead code:
`build_response` only ever produces status 200 or 404 (see
`c8_counterexample` for a malformed percent-encoding answered with 404). -/
theorem c8_theorem (cwd uri_path doc_root : PyStr) (fs : PyStr → OpenResult)
    (r : HttpResponsePlan) (h : build_response_parts cwd uri_path doc_root fs = Except.ok r) :
    r.status_code = 200 ∨ r.status_code = 404 := by
  unfold build_response_parts at h
  by_cases hs : security_check cwd uri_path doc_root = true
  · rw [if_pos hs] at h
    cases ho : os_open fs cwd (full_path uri_path doc_root) <;> rw [ho] at h
    · injection h with h2
      subst h2
      left
      rfl
    · injection h with h2
      subst h2
      right
      rfl
    · exact Except.noConfusion h
  · rw [if_neg hs] at h
    injection h with h2
    subst h2
    right
    rfl

/-- C8, witness: the malformed-percent request `/%zz` instantiates the 404
disjunct. -/
theorem c8_witness : 404 = 200 ∨ 404 = 404 :=
  c8_theorem (S "/") (S "/%zz") (S "/srv/www") (fun _ => OpenResult.enoent)
    ⟨404, S "Not Found", S "text/html", asciiB "<h1>404 Not Found</h1>"⟩ (by decide)

/-! ## Claim C9 -/

/-- C9: the handler's outcome is a deterministic function of the request's
first line, the document root, the filesystem contents and the clock reading
(the `Date` parameter): any two non-empty buffered requests with the same
first line get identical treatment — bytes after the first line never
influence the response. With equal `Date` values the responses are
byte-identical, which is the claim's "identical except for the Date header"
for two connections handled at the same clock reading. -/
theorem c9_theorem (chunks1 chunks2 : List Bytes) (doc_root cwd : PyStr)
    (fs : PyStr → OpenResult) (date : PyStr)
    (h1 : recv_all [] chunks1 ≠ []) (h2 : recv_all [] chunks2 ≠ [])
    (h3 : firstLine (latin1Decode (recv_all [] chunks1))
        = firstLine (latin1Decode (recv_all [] chunks2))) :
    handle_request chunks1 doc_root cwd fs date = handle_request chunks2 doc_root cwd fs date := by
  simp only [handle_request]
  rw [if_neg h1, if_neg h2, h3]

/-- C9, witness: the same GET first line with different trailing header bytes
produces the same response bytes. -/
theorem c9_witness :
    handle_request [asciiB "GET /same HTTP/1.1\r\n\r\n"] (S "/srv/www") (S "/")
      (fun _ => OpenResult.enoent) (S "D")
    = handle_request [asciiB "GET /same HTTP/1.1\r\nHost: h\r\n\r\nextra"] (S "/srv/www") (S "/")
      (fun _ => OpenResult.enoent) (S "D") :=
  c9_theorem _ _ _ _ _ _ (by decide) (by decide) (by decide)

/-! ## Claim C10 -/

/-- C10: the 404 produced by the containment check carries the body
`<h1>404 Not Found (Security Violation)</h1>`, the 404 for a missing file
carries `<h1>404 Not Found</h1>`, and the two bodies differ, so a client can
tell a traversal rejection from a nonexistent file. -/
theorem c10_theorem (cwd uri_path doc_root : PyStr) (fs : PyStr → OpenResult) :
    (security_check cwd uri_path doc_root = false →
      build_response_parts cwd uri_path doc_root fs
        = Except.ok ⟨404, S "Not Found", S "text/html",
            asciiB "<h1>404 Not Found (Security Violation)</h1>"⟩)
    ∧ (security_check cwd uri_path doc_root = true →
        os_open fs cwd (full_path uri_path doc_root) = OpenResult.enoent →
        build_response_parts cwd uri_path doc_root fs
          = Except.ok ⟨404, S "Not Found", S "text/html", asciiB "<h1>404 Not Found</h1>"⟩)
    ∧ (asciiB "<h1>404 Not Found (Security Violation)</h1>"
        == asciiB "<h1>404 Not Found</h1>") = false := by
  refine ⟨fun h => ?_, fun h1 h2 => ?_, by decide⟩
  · simp [build_response_parts, h]
  · simp [build_response_parts, h1, h2]

/-! ## Claim C4, amended theorem -/

/-- When the first line of the buffered request does not split into exactly
three whitespace tokens, or its first token is not `GET`, `dispatch_line`
closes the connection without a response. -/
theorem dispatch_line_closed (line doc_root cwd : PyStr) (fs : PyStr → OpenResult)
    (date : PyStr)
    (h : (pySplitWs line).length ≠ 3 ∨ (pySplitWs line).headD [] ≠ S "GET") :
    dispatch_line line doc_root cwd fs date = Outcome.closed := by
  unfold dispatch_line
  rcases e : pySplitWs line with _ | ⟨a, _ | ⟨b, _ | ⟨c, _ | ⟨d, r⟩⟩⟩⟩ <;> rw [e] at h
  simp only [List.length_cons, List.length_nil, List.headD_cons] at h
  have ha : ¬ a = S "GET" := by
    rcases h with h | h
    · omega
    · exact h
  show (if a = S "GET" then _ else Outcome.closed) = Outcome.closed
  rw [if_neg ha]

/-- C4 (amended): an empty buffer, a first line without exactly three
whitespace tokens, or a method other than `GET` all close the connection with
zero response bytes; but a buffer lacking the CRLF header terminator is still
parsed at end of stream and can receive a response (see `c4_counterexample`). -/
theorem c4_theorem (chunks : List Bytes) (doc_root cwd : PyStr)
    (fs : PyStr → OpenResult) (date : PyStr)
    (h : (request_tokens chunks).length ≠ 3 ∨ (request_tokens chunks).headD [] ≠ S "GET") :
    handle_request chunks doc_root cwd fs date = Outcome.closed := by
  by_cases hd : recv_all [] chunks = []
  · simp [handle_request, hd]
  · have hr : handle_request chunks doc_root cwd fs date
      = dispatch_line (firstLine (latin1Decode (recv_all [] chunks))) doc_root cwd fs date := by
      simp only [handle_request]
      rw [if_neg hd]
    rw [hr]
    exact dispatch_line_closed _ _ _ _ _ h

/-- C4, witness: a `POST` request line closes the connection silently. -/
theorem c4_witness :
    handle_request [asciiB "POST /x HTTP/1.1\r\n\r\n"] (S "/srv/www") (S "/")
      (fun _ => OpenResult.enoent) (S "D") = Outcome.closed :=
  c4_theorem _ _ _ _ _ (by decide)

/-! ## Claim C3, amended theorem -/

/-- Every character `decDigit` can produce is a Latin-1 code point. -/
theorem decDigit_toNat_lt (m : Nat) : (decDigit m).toNat < 256 := by
  unfold decDigit
  rcases h : m % 10 with _ | _ | _ | _ | _ | _ | _ | _ | _ | k
  case succ.succ.succ.succ.succ.succ.succ.succ.succ =>
    show ('9').toNat < 256
    decide
  all_goals decide

/-- The digits accumulated by `natStrAux` are Latin-1 whenever the
accumulator is. -/
theorem natStrAux_all_latin1 (fuel : Nat) :
    ∀ (n : Nat) (acc : PyStr), acc.all (fun c => c.toNat < 256) = true →
      (natStrAux fuel n acc).all (fun c => c.toNat < 256) = true := by
  induction fuel with
  | zero => intro n acc h; simpa [natStrAux] using h
  | succ f ih =>
    intro n acc h
    unfold natStrAux
    split
    · simpa [List.all_cons, h] using decDigit_toNat_lt n
    · exact ih _ _ (by simpa [List.all_cons, h] using decDigit_toNat_lt n)

/-- The decimal rendering of a `Nat` is Latin-1 text. -/
theorem natStr_all_latin1 (n : Nat) : (natStr n).all (fun c => c.toNat < 256) = true :=
  natStrAux_all_latin1 (n + 1) n [] rfl

/-- C3 (amended): whenever the status text, content type and date are Latin-1
encodable — as the three fixed status texts, the fixed MIME strings and the
RFC 1123 date always are — `format_http_response` produces exactly the wire
format the claim describes: the status line and the five headers in order,
each CRLF-terminated, a blank CRLF, then the body unmodified, with
`Content-Length` the exact byte length of the body, the header block one byte
per character, and nothing after the body. For other inputs `.encode('latin-1')`
raises instead (see `c3_counterexample`). -/
theorem c3_theorem (code : Nat) (text ct : PyStr) (body : Bytes) (date : PyStr)
    (ht : text.all (fun c => c.toNat < 256) = true)
    (hc : ct.all (fun c => c.toNat < 256) = true)
    (hd : date.all (fun c => c.toNat < 256) = true) :
    format_http_response code text ct body date = some (frame_spec code text ct body date) := by
  have hall :
      ((S "HTTP/1.1 " ++ natStr code ++ S " " ++ text ++ S "\r\n")
        ++ pyJoinSep (S "\r\n")
            [ S "Date: " ++ date,
              S "Server: " ++ SERVER_NAME,
              S "Content-Type: " ++ ct,
              S "Content-Length: " ++ natStr body.length,
              S "Connection: close" ]
        ++ S "\r\n\r\n").all (fun c => c.toNat < 256) = true := by
    simp [pyJoinSep, List.all_append, ht, hc, hd, natStr_all_latin1, SERVER_NAME]
    constructor <;> decide
  have hcrlf : (S "\r\n").map Char.toNat = [13, 10] := by decide
  have hcrlf2 : (S "\r\n\r\n").map Char.toNat = [13, 10, 13, 10] := by decide
  simp only [format_http_response, latin1Encode, hall, if_true, Option.map_some']
  simp [frame_spec, encodeLine, pyJoinSep, List.map_append, hcrlf, hcrlf2,
    List.append_assoc]

/-- C3, witness: a concrete 200 response with a two-byte body frames exactly
as described. -/
theorem c3_witness :
    format_http_response 200 (S "OK") (S "text/html") (asciiB "hi")
      (S "Thu, 01 Jan 1970 00:00:00 GMT")
    = some (frame_spec 200 (S "OK") (S "text/html") (asciiB "hi")
        (S "Thu, 01 Jan 1970 00:00:00 GMT")) :=
  c3_theorem 200 (S "OK") (S "text/html") (asciiB "hi")
    (S "Thu, 01 Jan 1970 00:00:00 GMT") (by decide) (by decide) (by decide)

/-! ## Claim C6 -/

/-- The one-step unfolding of `pySplitChar` on a cons cell. -/
theorem pySplitChar_cons (sep c : Char) (rest : PyStr) :
    pySplitChar sep (c :: rest)
      = match pySplitChar sep rest with
        | [] => [[]]
        | hd :: tl => if c = sep then [] :: hd :: tl else (c :: hd) :: tl := rfl

/-- `pySplitChar` never returns the empty list. -/
theorem pySplitChar_ne_nil (sep : Char) (l : PyStr) : pySplitChar sep l ≠ [] := by
  induction l with
  | nil => simp [pySplitChar]
  | cons c rest ih =>
    obtain ⟨hd, tl, hr⟩ := List.exists_cons_of_ne_nil ih
    rw [pySplitChar_cons, hr]
    show ¬ (if c = sep then [] :: hd :: tl else (c :: hd) :: tl) = []
    split <;> simp

/-- Splitting a separator-free string gives the one-piece list. -/
theorem pySplitChar_of_not_mem (sep : Char) (l : PyStr) (h : sep ∉ l) :
    pySplitChar sep l = [l] := by
  induction l with
  | nil => rfl
  | cons c rest ih =>
    have h' : ¬ (sep = c ∨ sep ∈ rest) := by simpa [List.mem_cons] using h
    have hc : ¬ c = sep := fun e => h' (Or.inl e.symm)
    have hrest : sep ∉ rest := fun e => h' (Or.inr e)
    unfold pySplitChar
    rw [ih hrest]
    simp [hc]

/-- Splitting a string containing the separator gives at least two pieces. -/
theorem pySplitChar_two_of_mem (sep : Char) (l : PyStr) (h : sep ∈ l) :
    ∃ x ys, pySplitChar sep l = x :: ys ∧ ys ≠ [] := by
  induction l with
  | nil => cases h
  | cons c rest ih =>
    by_cases hc : c = sep
    · obtain ⟨hd, tl, hr⟩ := List.exists_cons_of_ne_nil (pySplitChar_ne_nil sep rest)
      refine ⟨[], hd :: tl, ?_, by simp⟩
      unfold pySplitChar
      rw [hr]
      simp [hc]
    · have hrest : sep ∈ rest := by
        rcases List.mem_cons.mp h with h1 | h1
        · exact absurd h1.symm hc
        · exact h1
      obtain ⟨x, ys, hxy, hys⟩ := ih hrest
      refine ⟨c :: x, ys, ?_, hys⟩
      unfold pySplitChar
      rw [hxy]
      simp [hc]

/-- `takeWhile` ignores everything appended after a failing element. -/
theorem takeWhile_append_of_exists (p : Char → Bool) (A B : PyStr)
    (h : ∃ a ∈ A, p a = false) : (A ++ B).takeWhile p = A.takeWhile p := by
  induction A with
  | nil => simp at h
  | cons a A ih =>
    cases hpa : p a with
    | false => simp [List.takeWhile_cons, hpa]
    | true =>
      obtain ⟨x, hxA, hpx⟩ := h
      have hx : x ∈ A := by
        rcases List.mem_cons.mp hxA with h1 | h1
        · rw [h1] at hpx
          rw [hpx] at hpa
          exact Bool.noConfusion hpa
        · exact h1
      simp [List.takeWhile_cons, hpa, ih ⟨x, hx, hpx⟩]

/-- `takeWhile` runs past a wholly-passing prefix. -/
theorem takeWhile_append_of_all (p : Char → Bool) (A B : PyStr)
    (h : ∀ a ∈ A, p a = true) : (A ++ B).takeWhile p = A ++ B.takeWhile p := by
  induction A with
  | nil => simp
  | cons a A ih =>
    simp [List.takeWhile_cons, h a (List.mem_cons_self a A),
      ih (fun x hx => h x (List.mem_cons_of_mem a hx))]

/-- A wholly-passing list is its own `takeWhile`. -/
theorem takeWhile_eq_self_of_all (p : Char → Bool) (A : PyStr)
    (h : ∀ a ∈ A, p a = true) : A.takeWhile p = A := by
  induction A with
  | nil => rfl
  | cons a A ih =>
    simp [List.takeWhile_cons, h a (List.mem_cons_self a A),
      ih (fun x hx => h x (List.mem_cons_of_mem a hx))]

/-- Appending one failing element does not change `takeWhile`. -/
theorem takeWhile_append_single (p : Char → Bool) (A : PyStr) (x : Char)
    (hx : p x = false) : (A ++ [x]).takeWhile p = A.takeWhile p := by
  by_cases hA : ∀ a ∈ A, p a = true
  · rw [takeWhile_append_of_all p A [x] hA, takeWhile_eq_self_of_all p A hA]
    simp [List.takeWhile_cons, hx]
  · obtain ⟨a, ha, hpa⟩ : ∃ a ∈ A, p a = false := by
      push_neg at hA
      obtain ⟨a, ha, hpa⟩ := hA
      refine ⟨a, ha, ?_⟩
      revert hpa
      cases p a <;> simp
    exact takeWhile_append_of_exists p A [x] ⟨a, ha, hpa⟩

/-- The last piece of a one-character split is the text after the last
occurrence of the separator. -/
theorem pySplitChar_getLastD (sep : Char) (l : PyStr) :
    (pySplitChar sep l).getLastD [] = afterLast sep l := by
  induction l with
  | nil => rfl
  | cons c rest ih =>
    obtain ⟨hd, tl, hr⟩ := List.exists_cons_of_ne_nil (pySplitChar_ne_nil sep rest)
    by_cases hc : c = sep
    · subst hc
      have hstep : pySplitChar c (c :: rest) = [] :: hd :: tl := by
        rw [pySplitChar_cons, hr]
        simp
      have hR : afterLast c (c :: rest) = afterLast c rest := by
        unfold afterLast
        rw [List.reverse_cons]
        rw [takeWhile_append_single (neChar c) rest.reverse c (by simp [neChar])]
      rw [hstep, List.getLastD_cons, hR]
      rw [hr] at ih
      exact ih
    · by_cases hs : sep ∈ rest
      · obtain ⟨x, ys, hxy, hys⟩ := pySplitChar_two_of_mem sep rest hs
        have hstep : pySplitChar sep (c :: rest) = (c :: x) :: ys := by
          rw [pySplitChar_cons, hxy]
          simp [hc]
        have hR : afterLast sep (c :: rest) = afterLast sep rest := by
          unfold afterLast
          rw [List.reverse_cons]
          rw [takeWhile_append_of_exists (neChar sep) rest.reverse [c]
            ⟨sep, List.mem_reverse.mpr hs, by simp [neChar]⟩]
        rw [hxy] at ih
        rw [List.getLastD_cons] at ih
        obtain ⟨z, zs, rfl⟩ := List.exists_cons_of_ne_nil hys
        rw [List.getLastD_cons] at ih
        rw [hstep, List.getLastD_cons, List.getLastD_cons, hR]
        exact ih
      · have h1 : pySplitChar sep rest = [rest] := pySplitChar_of_not_mem sep rest hs
        have hL : pySplitChar sep (c :: rest) = [c :: rest] := by
          rw [pySplitChar_cons, h1]
          simp [hc]
        have hall : ∀ a ∈ rest.reverse, neChar sep a = true := by
          intro a ha
          have ham : a ∈ rest := List.mem_reverse.mp ha
          have hane : ¬ a = sep := fun e => hs (e ▸ ham)
          simp [neChar, hane]
        have hR : afterLast sep (c :: rest) = c :: rest := by
          unfold afterLast
          rw [List.reverse_cons]
          rw [takeWhile_append_of_all (neChar sep) rest.reverse [c] hall]
          have hone : [c].takeWhile (neChar sep) = [c] := by
            simp [List.takeWhile_cons, neChar, hc]
          rw [hone, List.reverse_append]
          simp
        rw [hL, hR]
        simp [List.getLastD_cons]

/-- When a dot occurs before the first slash (reading from the end), taking up
to the first dot is unaffected by first cutting at the slash. -/
theorem takeWhile_dot_comm (l : PyStr) (h : '.' ∈ l.takeWhile (neChar '/')) :
    l.takeWhile (neChar '.') = (l.takeWhile (neChar '/')).takeWhile (neChar '.') := by
  induction l with
  | nil => simp at h
  | cons a t ih =>
    by_cases ha1 : a = '.'
    · subst ha1
      have h1 : neChar '.' '.' = false := by simp [neChar]
      have h2 : neChar '/' '.' = true := by simp [neChar]
      simp [List.takeWhile_cons, h1, h2]
    · by_cases ha2 : a = '/'
      · subst ha2
        have h2 : neChar '/' '/' = false := by simp [neChar]
        rw [List.takeWhile_cons, h2] at h
        simp at h
      · have h1 : neChar '.' a = true := by simp [neChar, ha1]
        have h2 : neChar '/' a = true := by simp [neChar, ha2]
        have hmem : '.' ∈ t.takeWhile (neChar '/') := by
          rw [List.takeWhile_cons, h2] at h
          simp only [if_true] at h
          rcases List.mem_cons.mp h with hx | hx
          · exact absurd hx.symm ha1
          · exact hx
        rw [List.takeWhile_cons, List.takeWhile_cons, h1, h2]
        simp only [if_true, List.takeWhile_cons, h1]
        rw [ih hmem]

/-- When the string has a dot but none before the first slash (reading from
the end), the text up to the first dot contains a slash. -/
theorem slash_mem_takeWhile_dot (l : PyStr) (hdot : '.' ∈ l)
    (hseg : '.' ∉ l.takeWhile (neChar '/')) : '/' ∈ l.takeWhile (neChar '.') := by
  induction l with
  | nil => cases hdot
  | cons a t ih =>
    by_cases ha1 : a = '.'
    · exfalso
      subst ha1
      have h2 : neChar '/' '.' = true := by simp [neChar]
      refine hseg ?_
      rw [List.takeWhile_cons, h2]
      simp
    · by_cases ha2 : a = '/'
      · subst ha2
        have h1 : neChar '.' '/' = true := by simp [neChar]
        rw [List.takeWhile_cons, h1]
        simp
      · have hdot' : '.' ∈ t := by
          rcases List.mem_cons.mp hdot with hx | hx
          · exact absurd hx.symm ha1
          · exact hx
        have h2 : neChar '/' a = true := by simp [neChar, ha2]
        have hseg' : '.' ∉ t.takeWhile (neChar '/') := by
          intro hx
          refine hseg ?_
          rw [List.takeWhile_cons, h2]
          simp only [if_true]
          exact List.mem_cons_of_mem a hx
        have h1 : neChar '.' a = true := by simp [neChar, ha1]
        rw [List.takeWhile_cons, h1]
        simp only [if_true]
        exact List.mem_cons_of_mem a (ih hdot' hseg')

/-- Everything in `afterLast sep l` is in `l`. -/
theorem mem_afterLast_subset (sep c : Char) (l : PyStr) (h : c ∈ afterLast sep l) : c ∈ l := by
  unfold afterLast at h
  have h1 := List.mem_reverse.mp h
  exact List.mem_reverse.mp (List.takeWhile_subset _ h1)

/-- When the final path segment has a dot, cutting at the last dot commutes
with first cutting at the last slash. -/
theorem afterLast_dot_comm (p : PyStr) (h : '.' ∈ afterLast '/' p) :
    afterLast '.' p = afterLast '.' (afterLast '/' p) := by
  have h' : '.' ∈ p.reverse.takeWhile (neChar '/') := by
    unfold afterLast at h
    exact List.mem_reverse.mp h
  unfold afterLast
  rw [List.reverse_reverse]
  rw [takeWhile_dot_comm p.reverse h']

/-- Lower-casing keeps a slash. -/
theorem pyLower_slash_mem (ext : PyStr) (h : ('/' : Char) ∈ ext) :
    ('/' : Char) ∈ pyLower ext := by
  have h1 : Char.toLower '/' ∈ ext.map Char.toLower := List.mem_map_of_mem Char.toLower h
  have h2 : Char.toLower '/' = '/' := by decide
  rw [h2] at h1
  exact h1

/-- No extension containing a slash is in the MIME table. -/
theorem lookupMime_of_slash (ext : PyStr) (h : ('/' : Char) ∈ ext) :
    lookupMime ext = DEFAULT_MIME_TYPE := by
  have hk : ∀ kv ∈ MIME_TYPES, (('/' : Char) ∉ kv.1) := by decide
  have hnone : MIME_TYPES.find? (fun kv => kv.1 == ext) = none := by
    rw [List.find?_eq_none]
    intro kv hkv hbe
    have he : kv.1 = ext := eq_of_beq hbe
    have hmem : ('/' : Char) ∈ kv.1 := by
      rw [he]
      exact h
    exact hk kv hkv hmem
  simp [lookupMime, hnone]

/-- C6: `get_mime_type` computes exactly the resolution the claim describes —
the extension after the last dot of the path's final segment, looked up case
insensitively in the fixed table, defaulting to `application/octet-stream`
when the final segment has no dot or the extension is unknown. It is a pure
function of its argument by construction. -/
theorem c6_theorem (p : PyStr) : get_mime_type p = mime_spec p := by
  unfold get_mime_type mime_spec
  by_cases hp : '.' ∈ p
  · rw [if_pos hp]
    by_cases hseg : '.' ∈ afterLast '/' p
    · rw [if_pos hseg, pySplitChar_getLastD, afterLast_dot_comm p hseg]
    · rw [if_neg hseg, pySplitChar_getLastD]
      have hs : ('/' : Char) ∈ afterLast '.' p := by
        have h1 : '.' ∈ p.reverse := List.mem_reverse.mpr hp
        have h2 : '.' ∉ p.reverse.takeWhile (neChar '/') := by
          intro hx
          refine hseg ?_
          unfold afterLast
          exact List.mem_reverse.mpr hx
        unfold afterLast
        exact List.mem_reverse.mpr (slash_mem_takeWhile_dot p.reverse h1 h2)
      exact lookupMime_of_slash _ (pyLower_slash_mem _ hs)
  · rw [if_neg hp]
    rw [if_neg (fun h => hp (mem_afterLast_subset '/' '.' p h))]
